import Mathlib

/-!
Shallow embedding of the glue code owned by the MOR repository
(`extract_displacement_components.py`, `streamlit_app.py`, `ezyrb_test.py`,
`file_read.py`) and proofs about the frozen claims.

Numeric arrays are modelled over `ℚ` (the Python code uses numpy float64;
the claims under study are about control flow, shapes, string matching and
exact arithmetic identities, none of which depend on rounding).
A pyvista mesh is modelled as its association list of named point-data
arrays; the file system is an association list from paths to meshes.
Every call site of the extractor in the repository passes
`output_dir=None, visualize=False`, so the embedding covers exactly the
code executed under those flags (the CSV/plot branches are dead at all
call sites relevant to the claims).
-/

/-- Python substring test `needle in hay` on character lists:
true iff `needle` occurs contiguously inside `hay`. -/
def strContainsAux (needle : List Char) : List Char → Bool
  | [] => needle.isEmpty
  | c :: rest => needle.isPrefixOf (c :: rest) || strContainsAux needle rest

/-- Python `needle in hay` on strings. -/
def pyContains (hay needle : String) : Bool :=
  strContainsAux needle.data hay.data

/-- ASCII lowercasing, modelling Python `str.lower()` on the ASCII file
names handled by the NPY loader. -/
def pyLowerChar (c : Char) : Char :=
  if 'A' ≤ c ∧ c ≤ 'Z' then Char.ofNat (c.toNat + 32) else c

/-- Python `str.lower()`. -/
def pyLower (s : String) : String :=
  String.mk (s.data.map pyLowerChar)

/-- A pyvista mesh, reduced to its named point-data arrays
(`mesh.array_names` / `mesh.get_array`). -/
structure Mesh where
  arrays : List (String × List ℚ)
deriving DecidableEq

/-- Model of `mesh.array_names`. -/
def Mesh.array_names (m : Mesh) : List String :=
  m.arrays.map Prod.fst

/-- Model of `mesh.get_array(name)` (every name passed to it below comes from
`array_names`, so the lookup succeeds there). -/
def Mesh.get_array (m : Mesh) (name : String) : Option (List ℚ) :=
  m.arrays.lookup name

/-- A file system: paths mapped to mesh file contents. `pv.read` succeeds
exactly on the stored paths. -/
def pvRead (fs : List (String × Mesh)) (path : String) : Option Mesh :=
  fs.lookup path

/-- One component of a Python return tuple, as produced by
`extract_displacement_components`. -/
inductive PyVal where
  | pnone
  | arr (a : List ℚ)
  | mesh (m : Mesh)
  | dict (d : List (String × String))
deriving DecidableEq

/-- Convert a `None`-or-array value to a tuple slot. -/
def optToPyVal : Option (List ℚ) → PyVal
  | none => PyVal.pnone
  | some a => PyVal.arr a

/-- The four `*_array_name` locals plus the `found_components` dict of
`extract_displacement_components` (lines 32-38). -/
structure ScanState where
  x_array_name : Option String
  y_array_name : Option String
  z_array_name : Option String
  s_array_name : Option String
  found_components : List (String × String)
deriving DecidableEq

/-- Python dict assignment `d[k] = v` (update in place or append). -/
def dictSet (d : List (String × String)) (k v : String) : List (String × String) :=
  if d.any (fun p => p.1 == k) then
    d.map (fun p => if p.1 == k then (k, v) else p)
  else d ++ [(k, v)]

/-- The f-string `f"deltaT=\x7bdeltaT\x7d"`. -/
def deltaTTag (dT : String) : String := "deltaT=" ++ dT

/-- Initial scan state. -/
def emptyScan : ScanState := ⟨none, none, none, none, []⟩

/-- Loop body of the English-marker scan
(`extract_displacement_components.py` lines 41-54). -/
def scanEnglishStep (dT : String) (st : ScanState) (name : String) : ScanState :=
  if pyContains name "Displacement_field,_X-component" && pyContains name (deltaTTag dT) then
    { st with x_array_name := some name,
              found_components := dictSet st.found_components "X" name }
  else if pyContains name "Displacement_field,_Y-component" && pyContains name (deltaTTag dT) then
    { st with y_array_name := some name,
              found_components := dictSet st.found_components "Y" name }
  else if pyContains name "Displacement_field,_Z-component" && pyContains name (deltaTTag dT) then
    { st with z_array_name := some name,
              found_components := dictSet st.found_components "Z" name }
  else if pyContains name "von_Mises_stress" && pyContains name (deltaTTag dT) then
    { st with s_array_name := some name,
              found_components := dictSet st.found_components "S" name }
  else st

/-- Loop body of the localized-marker fallback scan (lines 58-70). -/
def scanChineseStep (dT : String) (st : ScanState) (name : String) : ScanState :=
  if pyContains name "X_分量" && pyContains name (deltaTTag dT) then
    { st with x_array_name := some name,
              found_components := dictSet st.found_components "X" name }
  else if pyContains name "Y_分量" && pyContains name (deltaTTag dT) then
    { st with y_array_name := some name,
              found_components := dictSet st.found_components "Y" name }
  else if pyContains name "Z_分量" && pyContains name (deltaTTag dT) then
    { st with z_array_name := some name,
              found_components := dictSet st.found_components "Z" name }
  else if pyContains name "S_分量" && pyContains name (deltaTTag dT) then
    { st with s_array_name := some name,
              found_components := dictSet st.found_components "S" name }
  else st

/-- The full name-matching pass of `extract_displacement_components`
(lines 41-70): English scan first, localized scan only when no
displacement axis was found (line 57 checks X, Y and Z only). -/
def findArrays (m : Mesh) (dT : String) : ScanState :=
  let st := m.array_names.foldl (scanEnglishStep dT) emptyScan
  if st.x_array_name.isNone && st.y_array_name.isNone && st.z_array_name.isNone then
    m.array_names.foldl (scanChineseStep dT) st
  else st

/-- Line 81, `x_data = mesh.get_array(x_array_name) if x_array_name else None`,
on an opened mesh. -/
def extract_x (m : Mesh) (dT : String) : Option (List ℚ) :=
  (findArrays m dT).x_array_name.bind m.get_array

/-- Line 82, the Y component. -/
def extract_y (m : Mesh) (dT : String) : Option (List ℚ) :=
  (findArrays m dT).y_array_name.bind m.get_array

/-- Line 83, the Z component. -/
def extract_z (m : Mesh) (dT : String) : Option (List ℚ) :=
  (findArrays m dT).z_array_name.bind m.get_array

/-- Line 84, the stress array. -/
def extract_stress (m : Mesh) (dT : String) : Option (List ℚ) :=
  (findArrays m dT).s_array_name.bind m.get_array

/-- Model of `extract_displacement_components(file_path, deltaT,
output_dir=None, visualize=False)` as state passing over the file system.  The first
component is the returned Python tuple, element by element; the second is
the file system after the call.  On a read failure the function returns
the literal 5-tuple of line 29; on success the 6-tuple of line 119. -/
def extract_displacement_components (fs : List (String × Mesh))
    (file_path deltaT : String) : List PyVal × List (String × Mesh) :=
  match pvRead fs file_path with
  | none => ([PyVal.pnone, PyVal.pnone, PyVal.pnone, PyVal.pnone, PyVal.dict []], fs)
  | some m =>
    ([optToPyVal (extract_x m deltaT), optToPyVal (extract_y m deltaT),
      optToPyVal (extract_z m deltaT), optToPyVal (extract_stress m deltaT),
      PyVal.mesh m, PyVal.dict (findArrays m deltaT).found_components], fs)

/-- A mesh exposing one English X-displacement array for tag `-50`. -/
def meshOkay : Mesh :=
  ⟨[("Displacement_field,_X-component_@_deltaT=-50", [1, 2, 3])]⟩

/-- C1: when the mesh file cannot be opened,
`extract_displacement_components` returns a tuple of FIVE elements
(line 29: `None, None, None, None, \x7b\x7d`), while the success path
returns SIX (line 119); so callers that unpack six components crash on
the failure path, contrary to the claim and to the function docstring. -/
theorem extract_failure_tuple_has_five_elements :
    (extract_displacement_components [] "missing.vtu" "-50").1.length = 5 ∧
    (extract_displacement_components [("ok.vtu", meshOkay)] "ok.vtu" "-50").1.length = 6 ∧
    (extract_displacement_components [] "missing.vtu" "-50").1.length ≠
      (extract_displacement_components [("ok.vtu", meshOkay)] "ok.vtu" "-50").1.length := by
  refine ⟨rfl, rfl, ?_⟩
  decide

/-- Digits of `\d+` taken greedily. -/
def takeDigits (l : List Char) : List Char := l.takeWhile Char.isDigit

/-- Consume the optional sign `-?`: whether a minus was taken, and the
remaining text.  (If the minus is taken but the body then fails, matching
without it fails as well, since a digit would be required where the minus
stands — so the regexes below need no backtracking over the sign.) -/
def splitSign : List Char → Bool × List Char
  | '-' :: cs => (true, cs)
  | l => (false, l)

/-- Anchored match of pattern1 of `list_available_deltats`,
`deltaT=(-?\d+)` at the head of `l`; returns the captured group. -/
def matchIntTagAt (l : List Char) : Option (List Char) :=
  if "deltaT=".data.isPrefixOf l then
    let p := splitSign (l.drop 7)
    let ds := takeDigits p.2
    if ds.isEmpty then none else some (if p.1 then '-' :: ds else ds)
  else none

/-- Pattern `\d+\.\d+` anchored at the head of `cs`, returning the matched text.
The greedy integer digits must be followed by a literal dot (a shorter
digit run would put a digit where the dot is required, so there is no
effective backtracking). -/
def matchUnsignedDecimalAt (cs : List Char) : Option (List Char) :=
  let ds := takeDigits cs
  if ds.isEmpty then none
  else
    match cs.drop ds.length with
    | '.' :: cs2 =>
      let fs := takeDigits cs2
      if fs.isEmpty then none else some (ds ++ '.' :: fs)
    | _ => none

/-- Anchored match of pattern2 `deltaT=(-?\d+\.\d+)`. -/
def matchDecTagAt (l : List Char) : Option (List Char) :=
  if "deltaT=".data.isPrefixOf l then
    let p := splitSign (l.drop 7)
    (matchUnsignedDecimalAt p.2).map (fun g => if p.1 then '-' :: g else g)
  else none

/-- Model of `re.search(pattern1, name)`: the match at the leftmost position where
one exists. -/
def searchIntTag : List Char → Option (List Char)
  | [] => none
  | c :: rest =>
    match matchIntTagAt (c :: rest) with
    | some g => some g
    | none => searchIntTag rest

/-- Model of `re.search(pattern2, name)`. -/
def searchDecTag : List Char → Option (List Char)
  | [] => none
  | c :: rest =>
    match matchDecTagAt (c :: rest) with
    | some g => some g
    | none => searchDecTag rest

/-- Python `set.add`: insert if not already present (accumulation order
models the iteration order of the small sets involved; ties of distinct
strings with equal numeric value do not occur in the claims). -/
def setAdd (s : List String) (x : String) : List String :=
  if x ∈ s then s else s ++ [x]

/-- Loop body of `list_available_deltats` (lines 241-249): try pattern1,
else pattern2, collecting captured groups into the set. -/
def collectStep (acc : List String) (name : String) : List String :=
  match searchIntTag name.data with
  | some g => setAdd acc (String.mk g)
  | none =>
    match searchDecTag name.data with
    | some g => setAdd acc (String.mk g)
    | none => acc

/-- The set of captured tags over all array names. -/
def collectTags (names : List String) : List String :=
  names.foldl collectStep []

/-- Numeric value of digit text. -/
def digitsToNat (ds : List Char) : Nat :=
  ds.foldl (fun n c => 10 * n + (c.toNat - '0'.toNat)) 0

/-- Value of `float(x)` on an unsigned integer-or-decimal literal. -/
def unsignedVal (l : List Char) : ℚ :=
  let ds := takeDigits l
  match l.drop ds.length with
  | '.' :: cs2 =>
    let fs := takeDigits cs2
    (digitsToNat ds : ℚ) + (digitsToNat fs : ℚ) / ((10 : ℚ) ^ fs.length)
  | _ => (digitsToNat ds : ℚ)

/-- Value of `float(x)` on the tag strings produced by the two patterns
(optional leading sign, then integer or decimal literal). -/
def tagVal (s : String) : ℚ :=
  match s.data with
  | '-' :: rest => -(unsignedVal rest)
  | l => unsignedVal l

/-- The sort key order of `sorted(..., key=lambda x: float(x))`. -/
def tagLE (a b : String) : Prop := tagVal a ≤ tagVal b

instance : DecidableRel tagLE :=
  fun a b => inferInstanceAs (Decidable (tagVal a ≤ tagVal b))

instance : IsTotal String tagLE := ⟨fun a b => le_total (tagVal a) (tagVal b)⟩

instance : IsTrans String tagLE := ⟨fun _ _ _ h h2 => le_trans h h2⟩

/-- The pure core of `list_available_deltats` on an opened mesh
(lines 234-251): collect the distinct captured tags and sort them by
their `float` value; the stable ascending sort of Python is realized as a
stable insertion sort, which agrees with it. -/
def list_available_deltats_core (m : Mesh) : List String :=
  List.insertionSort tagLE (collectTags m.array_names)

/-- Model of `list_available_deltats(file_path)`, including the read failure
branch that returns `[]` (line 231). -/
def list_available_deltats (fs : List (String × Mesh)) (path : String) : List String :=
  match pvRead fs path with
  | none => []
  | some m => list_available_deltats_core m

/-- If pattern2 matches anchored at a position, pattern1 matches there
too (the integer digits of the decimal already satisfy `-?\d+`). -/
lemma matchInt_isSome_of_matchDec (l : List Char)
    (h : (matchDecTagAt l).isSome = true) : (matchIntTagAt l).isSome = true := by
  simp only [matchDecTagAt] at h
  simp only [matchIntTagAt]
  split at h
  case isFalse => simp at h
  case isTrue hpre =>
    rw [if_pos hpre]
    cases hds : (takeDigits (splitSign (l.drop 7)).2).isEmpty with
    | false => simp [hds]
    | true =>
      simp only [matchUnsignedDecimalAt, hds, if_true] at h
      simp at h

/-- The `elif match2` branch of `list_available_deltats` is unreachable:
whenever the decimal pattern would find a match, the integer pattern
already found one, so decimal tags are truncated to their integer part. -/
lemma searchDecTag_none_of_searchIntTag_none :
    ∀ l : List Char, searchIntTag l = none → searchDecTag l = none := by
  intro l
  induction l with
  | nil => intro _; rfl
  | cons c rest ih =>
    intro h
    unfold searchIntTag at h
    unfold searchDecTag
    rcases hm : matchIntTagAt (c :: rest) with _ | g
    · rw [hm] at h
      rcases hd : matchDecTagAt (c :: rest) with _ | g2
      · exact ih h
      · have hsome := matchInt_isSome_of_matchDec (c :: rest) (by rw [hd]; rfl)
        rw [hm] at hsome
        simp at hsome
    · rw [hm] at h
      exact absurd h (by simp)

/-- Lemma: `setAdd` preserves distinctness. -/
lemma setAdd_nodup {s : List String} {x : String} (h : s.Nodup) :
    (setAdd s x).Nodup := by
  unfold setAdd
  split
  · exact h
  case isFalse hx =>
    refine List.Nodup.append h (List.nodup_singleton x) ?_
    intro a ha hax
    simp only [List.mem_singleton] at hax
    exact hx (hax ▸ ha)

/-- Each collection step preserves distinctness. -/
lemma collectStep_nodup {acc : List String} (name : String) (h : acc.Nodup) :
    (collectStep acc name).Nodup := by
  unfold collectStep
  rcases searchIntTag name.data with _ | g
  · rcases searchDecTag name.data with _ | g2
    · exact h
    · exact setAdd_nodup h
  · exact setAdd_nodup h

/-- The collected tag set is duplicate-free. -/
lemma collectTags_nodup (names : List String) : (collectTags names).Nodup := by
  unfold collectTags
  have hgen : ∀ (ns : List String) (acc : List String), acc.Nodup →
      (ns.foldl collectStep acc).Nodup := by
    intro ns
    induction ns with
    | nil => intro acc h; exact h
    | cons n rest ih => intro acc h; exact ih _ (collectStep_nodup n h)
  exact hgen names [] List.nodup_nil

/-- The mesh of the tag-discovery example of spec §8, plus one decimal tag. -/
def meshDecimalTags : Mesh :=
  ⟨[("A_@_deltaT=10", []), ("B_@_deltaT=-50", []),
    ("C_@_deltaT=0", []), ("D_@_deltaT=2.5", [])]⟩

/-- A mesh whose only array identifier carries the decimal tag `12.5`. -/
def meshOneDecimalTag : Mesh :=
  ⟨[("Displacement_field,_X-component_@_deltaT=12.5", [1])]⟩

/-- C3: for a mesh identifier carrying the decimal tag `deltaT=12.5`,
tag discovery returns `"12"`, not the full decimal string `"12.5"`:
`re.search` with the integer pattern is tried first and matches the
integer part, and the decimal `elif` branch is unreachable
(`searchDecTag_none_of_searchIntTag_none`). -/
theorem decimal_tag_truncated_to_integer_part :
    list_available_deltats_core meshOneDecimalTag = ["12"] ∧
    "12.5" ∉ list_available_deltats_core meshOneDecimalTag := by
  constructor
  · decide
  · decide

/-- C5 counterexample: with identifiers containing `deltaT=10`,
`deltaT=-50`, `deltaT=0` and `deltaT=2.5`, discovery returns
`["-50", "0", "2", "10"]`: the tag string `2.5` that appears in the
identifiers is not among the results (its integer part `2` is), so the
output is not the set of distinct tag strings appearing in the
identifiers. -/
theorem tag_discovery_decimal_counterexample :
    list_available_deltats_core meshDecimalTags = ["-50", "0", "2", "10"] ∧
    "2.5" ∉ list_available_deltats_core meshDecimalTags ∧
    list_available_deltats_core meshDecimalTags ≠ ["-50", "0", "2.5", "10"] := by
  refine ⟨by decide, by decide, by decide⟩

/-- The mesh of the example in the claim: integer tags 10, -50, 0. -/
def meshExampleTags : Mesh :=
  ⟨[("A_@_deltaT=10", []), ("B_@_deltaT=-50", []), ("C_@_deltaT=0", [])]⟩

/-- C5 (amended): tag discovery returns the distinct matched tag strings
(a decimal-valued tag contributes only its integer part) sorted ascending
by numeric value, not lexically; on the example of identifiers in the claim
containing `deltaT=10`, `deltaT=-50`, `deltaT=0` the result is
`["-50", "0", "10"]`. -/
theorem tag_discovery_sorted_numerically :
    list_available_deltats_core meshExampleTags = ["-50", "0", "10"] ∧
    ∀ m : Mesh, List.Sorted tagLE (list_available_deltats_core m) ∧
      (list_available_deltats_core m).Nodup := by
  constructor
  · decide
  · intro m
    constructor
    · exact List.sorted_insertionSort tagLE (collectTags m.array_names)
    · exact (List.perm_insertionSort tagLE (collectTags m.array_names)).nodup_iff.mpr
        (collectTags_nodup m.array_names)

/-- The VTU processing loop of the data-import page
(`streamlit_app.py` lines 670-693): for each discovered tag, extract and
append the X rows that are not `None`.  The tags all come from the same
opened temp file, so the loop is modelled on the opened mesh. -/
def vtu_snapshots_x (m : Mesh) (deltats : List String) : List (List ℚ) :=
  deltats.filterMap (extract_x m)

/-- Rows of the Y collection (line 683). -/
def vtu_snapshots_y (m : Mesh) (deltats : List String) : List (List ℚ) :=
  deltats.filterMap (extract_y m)

/-- Rows of the Z collection (line 685). -/
def vtu_snapshots_z (m : Mesh) (deltats : List String) : List (List ℚ) :=
  deltats.filterMap (extract_z m)

/-- Rows of the stress collection (line 687). -/
def vtu_snapshots_stress (m : Mesh) (deltats : List String) : List (List ℚ) :=
  deltats.filterMap (extract_stress m)

/-- Number of elements of `np.arange(start, stop, step)` on integers
(the UI enforces `step >= 1`). -/
def arangeLen (start stop step : Int) : Nat :=
  if 0 < step ∧ start < stop then (stop - start - 1).toNat / step.toNat + 1 else 0

/-- Model of `np.arange(start, stop, step)` on integers. -/
def np_arange (start stop step : Int) : List Int :=
  (List.range (arangeLen start stop step)).map (fun i => start + step * Int.ofNat i)

/-- Model of `np.arange(param_start, param_end, param_step).reshape(-1, 1)`
(lines 712-713): the stored parameter vector, one row per arange value. -/
def vtu_param (start stop step : Int) : List (List Int) :=
  (np_arange start stop step).map (fun v => [v])

/-- A mesh with a single tag and a matching X array. -/
def meshSingleTag : Mesh :=
  ⟨[("Displacement_field,_X-component_@_deltaT=0", [1, 2])]⟩

/-- C4 counterexample: a mesh with one discovered tag processed with the
default parameter range `-50, 90, 20` stores one X snapshot row but a
seven-row parameter vector, so the sample count does not equal the
parameter count for every choice of start/end/step and tags. -/
theorem vtu_snapshot_param_count_mismatch :
    list_available_deltats_core meshSingleTag = ["0"] ∧
    (vtu_snapshots_x meshSingleTag (list_available_deltats_core meshSingleTag)).length = 1 ∧
    (vtu_param (-50) 90 20).length = 7 ∧
    (vtu_snapshots_x meshSingleTag (list_available_deltats_core meshSingleTag)).length ≠
      (vtu_param (-50) 90 20).length := by
  refine ⟨by decide, by decide, by decide, by decide⟩

/-- Lemma: `filterMap` keeps exactly the positions where the function succeeds. -/
lemma length_filterMap_eq_countP {α β : Type} (f : α → Option β) :
    ∀ l : List α, (l.filterMap f).length = l.countP (fun a => (f a).isSome) := by
  intro l
  induction l with
  | nil => rfl
  | cons a t ih =>
    rcases hf : f a with _ | b
    · simp [List.filterMap_cons, hf, ih, List.countP_cons]
    · simp [List.filterMap_cons, hf, ih, List.countP_cons]

/-- C4 (amended): after a VTU import each stored snapshot collection has
one row per discovered tag whose extraction found that component, while
the stored parameter vector has `arangeLen start stop step` rows,
independent of the tags; the claimed invariant (sample count equals
parameter count) holds exactly when those two counts coincide. -/
theorem vtu_snapshot_rows_amended :
    ∀ (m : Mesh) (deltats : List String) (start stop step : Int),
    (vtu_snapshots_x m deltats).length
        = deltats.countP (fun d => (extract_x m d).isSome) ∧
    (vtu_snapshots_y m deltats).length
        = deltats.countP (fun d => (extract_y m d).isSome) ∧
    (vtu_snapshots_z m deltats).length
        = deltats.countP (fun d => (extract_z m d).isSome) ∧
    (vtu_snapshots_stress m deltats).length
        = deltats.countP (fun d => (extract_stress m d).isSome) ∧
    (vtu_param start stop step).length = arangeLen start stop step ∧
    ((vtu_snapshots_x m deltats).length = (vtu_param start stop step).length ↔
      deltats.countP (fun d => (extract_x m d).isSome) = arangeLen start stop step) := by
  intro m deltats start stop step
  have hx := length_filterMap_eq_countP (extract_x m) deltats
  have h1 : (np_arange start stop step).length = arangeLen start stop step := by
    rw [np_arange, List.length_map, List.length_range]
  have hp : (vtu_param start stop step).length = arangeLen start stop step := by
    rw [vtu_param, List.length_map, h1]
  refine ⟨hx, length_filterMap_eq_countP (extract_y m) deltats,
    length_filterMap_eq_countP (extract_z m) deltats,
    length_filterMap_eq_countP (extract_stress m) deltats, hp, ?_⟩
  rw [vtu_snapshots_x, hx, hp]

/-- Model of `np.abs(validation_snapshot - predicted_snapshot)` pointwise
(`streamlit_app.py` line 1372, `ezyrb_test.py` line 73). -/
def absErrors (t p : List ℚ) : List ℚ :=
  List.zipWith (fun a b => |a - b|) t p

/-- Tail of `np.argmax`: current maximum value, its (first) index, and
the index of the head of the remaining list; strict comparison keeps the
first occurrence of the maximum, as numpy does. -/
def argmaxAux : List ℚ → ℚ → Nat → Nat → Nat
  | [], _, best, _ => best
  | h :: rest, curMax, best, next =>
    if curMax < h then argmaxAux rest h next (next + 1)
    else argmaxAux rest curMax best (next + 1)

/-- Model of `np.argmax` over a rational list (0 on the empty list, which numpy
rejects; the call sites always pass non-empty snapshots). -/
def argmaxIdx : List ℚ → Nat
  | [] => 0
  | h :: rest => argmaxAux rest h 0 1

/-- Model of `np.max` over a rational list (0 on empty). -/
def listMaxQ : List ℚ → ℚ
  | [] => 0
  | h :: rest => rest.foldl max h

/-- Model of `np.mean` over a rational list. -/
def meanQ (l : List ℚ) : ℚ :=
  l.sum / (l.length : ℚ)

/-- The reported relative error of the single-point validation runs
(`streamlit_app.py` lines 1372-1375; identical formula in
`ezyrb_test.py` lines 73-77): absolute error at the first
maximum-error index, divided by the absolute TRUE value at that same
index, times 100. -/
def single_point_relative_error (t p : List ℚ) : ℚ :=
  let error := absErrors t p
  let max_error_idx := argmaxIdx error
  let max_error := error.getD max_error_idx 0
  max_error / |t.getD max_error_idx 0| * 100

/-- Modelled from the spec words of claim C2 (for refinement comparison
only): the maximum per-point absolute error divided by the mean of the
absolute values of the true snapshot, expressed as a percentage. -/
def spec_mean_relative_error (t p : List ℚ) : ℚ :=
  listMaxQ (absErrors t p) / meanQ (t.map (fun q => |q|)) * 100

/-- Value-tracking invariant of `argmaxAux`: if the running best index
points at the running maximum inside the full list `e`, and `e` holds
the remaining suffix starting at position `next`, the returned index
points at the maximum of the suffix folded over the running maximum. -/
lemma argmaxAux_getD (rest : List ℚ) :
    ∀ (e : List ℚ) (v : ℚ) (best next : Nat),
      e.getD best 0 = v →
      (∀ j, j < rest.length → e.getD (next + j) 0 = rest.getD j 0) →
      e.getD (argmaxAux rest v best next) 0 = rest.foldl max v := by
  induction rest with
  | nil =>
    intro e v best next hbest _
    simpa [argmaxAux] using hbest
  | cons h tl ih =>
    intro e v best next hbest hsuf
    by_cases hlt : v < h
    · have hh : e.getD next 0 = h := by
        have := hsuf 0 (by simp)
        simpa using this
      have hmax : max v h = h := max_eq_right (le_of_lt hlt)
      have hstep : argmaxAux (h :: tl) v best next = argmaxAux tl h next (next + 1) := by
        simp [argmaxAux, hlt]
      rw [hstep, List.foldl_cons, hmax]
      refine ih e h next (next + 1) hh ?_
      intro j hj
      have := hsuf (j + 1) (by simp; omega)
      have harith : next + 1 + j = next + (j + 1) := by omega
      rw [harith]
      simpa using this
    · have hmax : max v h = v := max_eq_left (le_of_not_lt hlt)
      have hstep : argmaxAux (h :: tl) v best next = argmaxAux tl v best (next + 1) := by
        simp [argmaxAux, hlt]
      rw [hstep, List.foldl_cons, hmax]
      refine ih e v best (next + 1) hbest ?_
      intro j hj
      have := hsuf (j + 1) (by simp; omega)
      have harith : next + 1 + j = next + (j + 1) := by omega
      rw [harith]
      simpa using this

/-- Lemma: `argmaxAux` stays within the bound that covers the running best and
the whole remaining suffix. -/
lemma argmaxAux_lt (rest : List ℚ) :
    ∀ (v : ℚ) (best next bound : Nat),
      best < bound → next + rest.length ≤ bound →
      argmaxAux rest v best next < bound := by
  induction rest with
  | nil =>
    intro v best next bound hb _
    simpa [argmaxAux] using hb
  | cons h tl ih =>
    intro v best next bound hb hlen
    by_cases hlt : v < h
    · have hstep : argmaxAux (h :: tl) v best next = argmaxAux tl h next (next + 1) := by
        simp [argmaxAux, hlt]
      rw [hstep]
      refine ih h next (next + 1) bound ?_ ?_
      · simp at hlen; omega
      · simp at hlen; omega
    · have hstep : argmaxAux (h :: tl) v best next = argmaxAux tl v best (next + 1) := by
        simp [argmaxAux, hlt]
      rw [hstep]
      refine ih v best (next + 1) bound hb ?_
      simp at hlen; omega

/-- On a non-empty list, the entry at `argmaxIdx` is the maximum. -/
lemma getD_argmaxIdx (e : List ℚ) (hne : e ≠ []) :
    e.getD (argmaxIdx e) 0 = listMaxQ e := by
  rcases e with _ | ⟨h, rest⟩
  · exact absurd rfl hne
  · show (h :: rest).getD (argmaxAux rest h 0 1) 0 = rest.foldl max h
    refine argmaxAux_getD rest (h :: rest) h 0 1 rfl ?_
    intro j hj
    have : (1 : Nat) + j = j + 1 := by omega
    rw [this]
    rfl

/-- On a non-empty list, `argmaxIdx` is in range. -/
lemma argmaxIdx_lt (e : List ℚ) (hne : e ≠ []) :
    argmaxIdx e < e.length := by
  rcases e with _ | ⟨h, rest⟩
  · exact absurd rfl hne
  · show argmaxAux rest h 0 1 < (h :: rest).length
    refine argmaxAux_lt rest h 0 1 (h :: rest).length (by simp) (by simp; omega)

/-- C2 counterexample: for true snapshot `[1, 4]` and predicted `[3, 4]`
the code reports `|1-3| / |1| * 100 = 200` (normalized by the true value
at the maximum-error point), while the claimed formula — maximum error
divided by the mean of the absolute values of the true snapshot — gives
`2 / (5/2) * 100 = 80`. -/
theorem single_point_error_normalizer_counterexample :
    single_point_relative_error [1, 4] [3, 4] = 200 ∧
    spec_mean_relative_error [1, 4] [3, 4] = 80 ∧
    single_point_relative_error [1, 4] [3, 4] ≠ spec_mean_relative_error [1, 4] [3, 4] := by
  have e1 : absErrors [1, 4] [3, 4] = [2, 0] := by norm_num [absErrors]
  have e2 : argmaxIdx [(2 : ℚ), 0] = 0 := by norm_num [argmaxIdx, argmaxAux]
  have h1 : single_point_relative_error [1, 4] [3, 4] = 200 := by
    simp only [single_point_relative_error, e1, e2]
    norm_num [List.getD]
  have h2 : spec_mean_relative_error [1, 4] [3, 4] = 80 := by
    simp only [spec_mean_relative_error, e1]
    norm_num [listMaxQ, meanQ]
  refine ⟨h1, h2, ?_⟩
  rw [h1, h2]
  norm_num

/-- C2 (amended): the reported relative error of the single-point
validation equals the magnitude of the maximum per-point absolute error
divided by the absolute value of the TRUE snapshot at the (first)
maximum-error index, expressed as a percentage — not by the mean of the
absolute values of the true snapshot. -/
theorem single_point_relative_error_amended :
    ∀ t p : List ℚ, 0 < t.length → t.length = p.length →
      argmaxIdx (absErrors t p) < (absErrors t p).length ∧
      (absErrors t p).getD (argmaxIdx (absErrors t p)) 0 = listMaxQ (absErrors t p) ∧
      single_point_relative_error t p =
        listMaxQ (absErrors t p) / |t.getD (argmaxIdx (absErrors t p)) 0| * 100 := by
  intro t p hlen heq
  have hlen2 : (absErrors t p).length = t.length := by
    rw [absErrors, List.length_zipWith, heq, min_self]
  have hne : absErrors t p ≠ [] := by
    intro hnil
    rw [hnil] at hlen2
    simp at hlen2
    omega
  refine ⟨argmaxIdx_lt _ hne, getD_argmaxIdx _ hne, ?_⟩
  simp only [single_point_relative_error]
  rw [getD_argmaxIdx _ hne]

/-- C2 amended witness at the input of the counterexample. -/
theorem single_point_relative_error_amended_witness :
    0 < ([1, 4] : List ℚ).length ∧
    single_point_relative_error [1, 4] [3, 4] =
      listMaxQ (absErrors [1, 4] [3, 4]) /
        |([1, 4] : List ℚ).getD (argmaxIdx (absErrors [1, 4] [3, 4])) 0| * 100 :=
  ⟨by decide, (single_point_relative_error_amended [1, 4] [3, 4] (by decide) (by decide)).2.2⟩

/-- The guarded relative error of the error-visualization page
(`streamlit_app.py` lines 2933-2938): divide the pointwise absolute
error by `mean(|true|)` when that mean is positive, otherwise keep the
absolute error. -/
def error_visualization_relative_error (t p : List ℚ) : List ℚ :=
  let mean_true := meanQ (t.map (fun q => |q|))
  if 0 < mean_true then List.zipWith (fun a b => |b - a| / mean_true) t p
  else List.zipWith (fun a b => |b - a|) t p

/-- C6: with `mean(|true|) > 0` the per-point error is
`|predicted - true| / mean(|true|)`; on the example of the claim,
`[2, 4, 6]` versus `[2, 5, 6]` the errors are `[0, 1/4, 0]` with maximum
`0.25` attained at index 1; and with `mean(|true|) = 0` the per-point
error is the absolute error, so no division by zero occurs. -/
theorem guarded_relative_error_with_zero_mean_fallback :
    (∀ t p : List ℚ, 0 < meanQ (t.map (fun q => |q|)) →
      error_visualization_relative_error t p =
        List.zipWith (fun a b => |b - a| / meanQ (t.map (fun q => |q|))) t p) ∧
    (∀ t p : List ℚ, meanQ (t.map (fun q => |q|)) = 0 →
      error_visualization_relative_error t p =
        List.zipWith (fun a b => |b - a|) t p) ∧
    error_visualization_relative_error [2, 4, 6] [2, 5, 6] = [0, 1/4, 0] ∧
    listMaxQ (error_visualization_relative_error [2, 4, 6] [2, 5, 6]) = 1/4 ∧
    argmaxIdx (error_visualization_relative_error [2, 4, 6] [2, 5, 6]) = 1 := by
  have hmean : meanQ (([2, 4, 6] : List ℚ).map (fun q => |q|)) = 4 := by
    norm_num [meanQ]
  have hex : error_visualization_relative_error [2, 4, 6] [2, 5, 6] = [0, 1/4, 0] := by
    simp only [error_visualization_relative_error, hmean]
    norm_num
  refine ⟨?_, ?_, hex, ?_, ?_⟩
  · intro t p h
    simp only [error_visualization_relative_error]
    rw [if_pos h]
  · intro t p h
    simp only [error_visualization_relative_error]
    rw [h, if_neg (lt_irrefl 0)]
  · rw [hex]
    norm_num [listMaxQ]
  · rw [hex]
    norm_num [argmaxIdx, argmaxAux]

/-- C6 witness at the example input, with the positive-mean hypothesis
discharged concretely. -/
theorem guarded_relative_error_witness :
    0 < meanQ (([2, 4, 6] : List ℚ).map (fun q => |q|)) ∧
    error_visualization_relative_error [2, 4, 6] [2, 5, 6] =
      List.zipWith (fun a b => |b - a| / meanQ (([2, 4, 6] : List ℚ).map (fun q => |q|)))
        [2, 4, 6] [2, 5, 6] :=
  ⟨by norm_num [meanQ],
    guarded_relative_error_with_zero_mean_fallback.1 [2, 4, 6] [2, 5, 6] (by norm_num [meanQ])⟩

/-- Lemma: `l1.isPrefixOf l2` holds exactly when `l2` extends `l1`. -/
lemma isPrefixOf_iff_exists_append :
    ∀ (n h : List Char), n.isPrefixOf h = true ↔ ∃ t, h = n ++ t := by
  intro n
  induction n with
  | nil =>
    intro h
    simp [List.isPrefixOf]
  | cons a as ih =>
    intro h
    cases h with
    | nil =>
      simp [List.isPrefixOf]
    | cons b bs =>
      constructor
      · intro hp
        simp only [List.isPrefixOf, Bool.and_eq_true, beq_iff_eq] at hp
        obtain ⟨t, ht⟩ := (ih bs).mp hp.2
        exact ⟨t, by rw [List.cons_append, hp.1, ht]⟩
      · rintro ⟨t, ht⟩
        rw [List.cons_append] at ht
        cases ht
        simp only [List.isPrefixOf, Bool.and_eq_true, beq_iff_eq]
        exact ⟨by simp, (ih (as ++ t)).mpr ⟨t, rfl⟩⟩

/-- The substring test holds exactly when the needle occurs between two
(possibly empty) flanks. -/
lemma strContainsAux_iff_exists :
    ∀ (h n : List Char), strContainsAux n h = true ↔
      ∃ pre post, h = pre ++ (n ++ post) := by
  intro h
  induction h with
  | nil =>
    intro n
    constructor
    · intro he
      simp only [strContainsAux, List.isEmpty_iff] at he
      exact ⟨[], [], by simp [he]⟩
    · rintro ⟨pre, post, hp⟩
      have : pre = [] ∧ n ++ post = [] := by
        exact List.append_eq_nil.mp hp.symm
      have hn : n = [] := (List.append_eq_nil.mp this.2).1
      simp [strContainsAux, hn]
  | cons c t ih =>
    intro n
    constructor
    · intro hc
      simp only [strContainsAux, Bool.or_eq_true] at hc
      rcases hc with hp | hrec
      · obtain ⟨tail, htail⟩ := (isPrefixOf_iff_exists_append n (c :: t)).mp hp
        exact ⟨[], tail, by simp [htail]⟩
      · obtain ⟨pre, post, hsplit⟩ := (ih n).mp hrec
        exact ⟨c :: pre, post, by simp [hsplit]⟩
    · rintro ⟨pre, post, hsplit⟩
      simp only [strContainsAux, Bool.or_eq_true]
      cases pre with
      | nil =>
        left
        exact (isPrefixOf_iff_exists_append n (c :: t)).mpr ⟨post, by simpa using hsplit⟩
      | cons d pre2 =>
        right
        rw [List.cons_append] at hsplit
        cases hsplit
        exact (ih n).mpr ⟨pre2, post, rfl⟩

/-- Substring containment is transitive. -/
lemma strContainsAux_trans {a b c : List Char}
    (hab : strContainsAux a b = true) (hbc : strContainsAux b c = true) :
    strContainsAux a c = true := by
  obtain ⟨p1, s1, h1⟩ := (strContainsAux_iff_exists b a).mp hab
  obtain ⟨p2, s2, h2⟩ := (strContainsAux_iff_exists c b).mp hbc
  refine (strContainsAux_iff_exists c a).mpr ⟨p2 ++ p1, s1 ++ s2, ?_⟩
  rw [h2, h1]
  simp [List.append_assoc]

/-- If `small` appears in `big` and `big` appears in `fn`, then `small`
appears in `fn`. -/
lemma pyContains_trans {fn big small : String}
    (h1 : pyContains fn big = true) (h2 : pyContains big small = true) :
    pyContains fn small = true :=
  strContainsAux_trans h2 h1

/-- If `small` appears in `big` but not in `fn`, then `big` does not
appear in `fn`. -/
lemma pyContains_false_of_sub (fn : String) {big small : String}
    (hsub : pyContains big small = true) (hfalse : pyContains fn small = false) :
    pyContains fn big = false := by
  cases hbig : pyContains fn big
  · rfl
  · rw [pyContains_trans hbig hsub] at hfalse
    exact absurd hfalse (by simp)

/-- The five session-state slots of the NPY loader. -/
inductive NpySlot where
  | x
  | y
  | z
  | stress
  | param
deriving DecidableEq

/-- The file-name dispatch of the NPY loader
(`streamlit_app.py` lines 775-795): lowercase the name, then test the
substring alternatives in fixed priority order; names matching nothing
are not stored (only a warning is shown). -/
def npyDispatch (name : String) : Option NpySlot :=
  let file_name := pyLower name
  if pyContains file_name "snapshots_x" || pyContains file_name "x" then some NpySlot.x
  else if pyContains file_name "snapshots_y" || pyContains file_name "y" then some NpySlot.y
  else if pyContains file_name "snapshots_z" || pyContains file_name "z" then some NpySlot.z
  else if pyContains file_name "stress" then some NpySlot.stress
  else if pyContains file_name "param" then some NpySlot.param
  else none

/-- C9: the NPY loader assigns each file to exactly one slot by testing
lowercased-name substrings in fixed priority order; any name containing
`x` lands in the X slot (even names also containing `stress` or
`param`), the later tests fire only when all earlier letters are absent,
and a name matching none of the substrings is not loaded anywhere. -/
theorem npy_loader_dispatch_priority :
    (∀ name : String, pyContains (pyLower name) "x" = true →
      npyDispatch name = some NpySlot.x) ∧
    (∀ name : String, pyContains (pyLower name) "x" = false →
      pyContains (pyLower name) "y" = true → npyDispatch name = some NpySlot.y) ∧
    (∀ name : String, pyContains (pyLower name) "x" = false →
      pyContains (pyLower name) "y" = false →
      pyContains (pyLower name) "z" = true → npyDispatch name = some NpySlot.z) ∧
    (∀ name : String, pyContains (pyLower name) "x" = false →
      pyContains (pyLower name) "y" = false →
      pyContains (pyLower name) "z" = false →
      pyContains (pyLower name) "stress" = true →
      npyDispatch name = some NpySlot.stress) ∧
    (∀ name : String, pyContains (pyLower name) "x" = false →
      pyContains (pyLower name) "y" = false →
      pyContains (pyLower name) "z" = false →
      pyContains (pyLower name) "stress" = false →
      pyContains (pyLower name) "param" = true →
      npyDispatch name = some NpySlot.param) ∧
    (∀ name : String, pyContains (pyLower name) "x" = false →
      pyContains (pyLower name) "y" = false →
      pyContains (pyLower name) "z" = false →
      pyContains (pyLower name) "stress" = false →
      pyContains (pyLower name) "param" = false →
      npyDispatch name = none) ∧
    npyDispatch "Xstress.npy" = some NpySlot.x ∧
    npyDispatch "PARAM_X.npy" = some NpySlot.x ∧
    npyDispatch "data.bc" = none := by
  have hsx : pyContains "snapshots_x" "x" = true := by decide
  have hsy : pyContains "snapshots_y" "y" = true := by decide
  have hsz : pyContains "snapshots_z" "z" = true := by decide
  refine ⟨?_, ?_, ?_, ?_, ?_, ?_, by decide, by decide, by decide⟩
  · intro name hx
    simp [npyDispatch, hx]
  · intro name hx hy
    have h1 := pyContains_false_of_sub (pyLower name) hsx hx
    simp [npyDispatch, hx, hy, h1]
  · intro name hx hy hz
    have h1 := pyContains_false_of_sub (pyLower name) hsx hx
    have h2 := pyContains_false_of_sub (pyLower name) hsy hy
    simp [npyDispatch, hx, hy, hz, h1, h2]
  · intro name hx hy hz hs
    have h1 := pyContains_false_of_sub (pyLower name) hsx hx
    have h2 := pyContains_false_of_sub (pyLower name) hsy hy
    have h3 := pyContains_false_of_sub (pyLower name) hsz hz
    simp [npyDispatch, hx, hy, hz, hs, h1, h2, h3]
  · intro name hx hy hz hs hp
    have h1 := pyContains_false_of_sub (pyLower name) hsx hx
    have h2 := pyContains_false_of_sub (pyLower name) hsy hy
    have h3 := pyContains_false_of_sub (pyLower name) hsz hz
    simp [npyDispatch, hx, hy, hz, hs, hp, h1, h2, h3]
  · intro name hx hy hz hs hp
    have h1 := pyContains_false_of_sub (pyLower name) hsx hx
    have h2 := pyContains_false_of_sub (pyLower name) hsy hy
    have h3 := pyContains_false_of_sub (pyLower name) hsz hz
    simp [npyDispatch, hx, hy, hz, hs, hp, h1, h2, h3]

/-- C9 witness: a concrete name containing both `x` and `stress` lands
in the X slot. -/
theorem npy_loader_dispatch_witness :
    pyContains (pyLower "stress_x.npy") "x" = true ∧
    npyDispatch "stress_x.npy" = some NpySlot.x :=
  ⟨by decide, npy_loader_dispatch_priority.1 "stress_x.npy" (by decide)⟩

/-- An in-memory image buffer plus the label of the method that
produced it, as returned by the rendering stages. -/
structure PlotImage where
  bytes : List Nat
  methodLabel : String
deriving DecidableEq

/-- Model of `create_2d_projection_plot` (`streamlit_app.py` lines 262-331): the
matplotlib drawing and `savefig` call are abstracted into `savefig`; on
success the PNG buffer is returned with the method label, and any
failure is re-raised with the message marker of the stage (line 331). -/
def create_2d_projection_plot (savefig : Mesh → Except String (List Nat))
    (m : Mesh) : Except String PlotImage :=
  match savefig m with
  | Except.ok buf => Except.ok ⟨buf, "2D Projections"⟩
  | Except.error e => Except.error ("2D投影渲染失败: " ++ e)

/-- Model of `create_cloud_friendly_plot` (lines 145-156): try the PyVista 3D
stage, on any exception try the matplotlib 3D-scatter stage, on any
exception run the 2D-projection stage, whose outcome (value or
exception) becomes the outcome of the driver. -/
def create_cloud_friendly_plot
    (stage3d stageScatter stage2d : Mesh → Except String PlotImage)
    (m : Mesh) : Except String PlotImage :=
  match stage3d m with
  | Except.ok img => Except.ok img
  | Except.error _ =>
    match stageScatter m with
    | Except.ok img => Except.ok img
    | Except.error _ => stage2d m

/-- C7: if the 3D stage and the scatter stage both raise, the driver
returns exactly the (non-empty) image produced by the 2D-projection
stage; and an exception escapes the driver only when all three stages
raise. -/
theorem visualization_fallback_chain :
    ∀ (stage3d stageScatter : Mesh → Except String PlotImage)
      (savefig : Mesh → Except String (List Nat)) (m : Mesh)
      (e1 e2 : String) (buf : List Nat),
      stage3d m = Except.error e1 →
      stageScatter m = Except.error e2 →
      savefig m = Except.ok buf →
      buf ≠ [] →
      (create_cloud_friendly_plot stage3d stageScatter
          (create_2d_projection_plot savefig) m =
        Except.ok ⟨buf, "2D Projections"⟩ ∧
       (create_2d_projection_plot savefig m = Except.ok ⟨buf, "2D Projections"⟩ ∧
        buf ≠ [])) ∧
      (∀ (stage2d : Mesh → Except String PlotImage) (err : String),
        create_cloud_friendly_plot stage3d stageScatter stage2d m =
          Except.error err →
        ∃ a b c, stage3d m = Except.error a ∧ stageScatter m = Except.error b ∧
          stage2d m = Except.error c) := by
  intro stage3d stageScatter savefig m e1 e2 buf h1 h2 h3 hne
  constructor
  · have h2d : create_2d_projection_plot savefig m = Except.ok ⟨buf, "2D Projections"⟩ := by
      simp [create_2d_projection_plot, h3]
    refine ⟨?_, h2d, hne⟩
    simp [create_cloud_friendly_plot, h1, h2, h2d]
  · intro stage2d err herr
    rcases ha : stage3d m with a | img
    · rcases hb : stageScatter m with b | img2
      · rcases hc : stage2d m with c | img3
        · exact ⟨a, b, c, rfl, rfl, rfl⟩
        · rw [create_cloud_friendly_plot, ha, hb, hc] at herr
          exact absurd herr (by simp)
      · rw [create_cloud_friendly_plot, ha, hb] at herr
        exact absurd herr (by simp)
    · rw [create_cloud_friendly_plot, ha] at herr
      exact absurd herr (by simp)

/-- C7 witness: concrete failing first stages and a one-byte 2D buffer. -/
theorem visualization_fallback_chain_witness :
    create_cloud_friendly_plot (fun _ => Except.error "libGL failure")
      (fun _ => Except.error "matplotlib failure")
      (create_2d_projection_plot (fun _ => Except.ok [137])) meshOkay =
      Except.ok ⟨[137], "2D Projections"⟩ :=
  ((visualization_fallback_chain (fun _ => Except.error "libGL failure")
    (fun _ => Except.error "matplotlib failure") (fun _ => Except.ok [137])
    meshOkay "libGL failure" "matplotlib failure" [137] rfl rfl rfl
    (by decide)).1).1

/-- Outcome of the body of the VTU-upload handler (tag discovery plus
extraction): it either completes or raises, and any exception is caught
by the `except` of the handler itself (line 744), so both outcomes flow into the
`finally` block. -/
inductive BodyOutcome where
  | success
  | raised (msg : String)
deriving DecidableEq

/-- The temp-file lifecycle of the VTU upload handler
(`streamlit_app.py` lines 635-749) over the set of existing file paths:
`NamedTemporaryFile(delete=False)` creates the file (line 635), the body
runs (reading only), and the `finally` block unlinks the temp path when
it still exists (lines 746-749). -/
def run_vtu_upload (existing : List String) (temp_file_path : String)
    (outcome : BodyOutcome) : List String :=
  let afterCreate := temp_file_path :: existing
  let afterBody :=
    match outcome with
    | BodyOutcome.success => afterCreate
    | BodyOutcome.raised _ => afterCreate
  if temp_file_path ∈ afterBody then afterBody.erase temp_file_path else afterBody

/-- C8: for every VTU upload, whether the body succeeds or raises, the
cleanup step removes the temporary file: it is absent from the resulting
file set, which equals the pre-upload file set (the temp name is fresh
by construction of `NamedTemporaryFile`). -/
theorem vtu_upload_temp_file_deleted :
    ∀ (existing : List String) (temp_file_path : String) (outcome : BodyOutcome),
      temp_file_path ∉ existing →
      temp_file_path ∉ run_vtu_upload existing temp_file_path outcome ∧
      run_vtu_upload existing temp_file_path outcome = existing := by
  intro existing temp outcome hfresh
  have hrun : run_vtu_upload existing temp outcome = existing := by
    cases outcome with
    | success =>
      simp [run_vtu_upload]
    | raised msg =>
      simp [run_vtu_upload]
  exact ⟨by rw [hrun]; exact hfresh, hrun⟩

/-- C8 witness: a concrete upload with both outcomes. -/
theorem vtu_upload_temp_file_deleted_witness :
    "/tmp/up.vtu" ∉ run_vtu_upload ["a.npy"] "/tmp/up.vtu" BodyOutcome.success ∧
    run_vtu_upload ["a.npy"] "/tmp/up.vtu" (BodyOutcome.raised "boom") = ["a.npy"] :=
  ⟨(vtu_upload_temp_file_deleted ["a.npy"] "/tmp/up.vtu" BodyOutcome.success
      (by decide)).1,
   (vtu_upload_temp_file_deleted ["a.npy"] "/tmp/up.vtu" (BodyOutcome.raised "boom")
      (by decide)).2⟩

/-- C10: under the flags of the claim (`output_dir=None`,
`visualize=False`) extraction is read-only with respect to the file
system, extracting twice from the unmodified file system returns the
same tuple as the first call, and the returned tuple depends only on the
content read from the file path. -/
theorem extract_deterministic_readonly :
    ∀ (fs : List (String × Mesh)) (path dT : String),
      (extract_displacement_components fs path dT).2 = fs ∧
      extract_displacement_components
          (extract_displacement_components fs path dT).2 path dT =
        extract_displacement_components fs path dT ∧
      (∀ fs2 : List (String × Mesh), pvRead fs2 path = pvRead fs path →
        (extract_displacement_components fs2 path dT).1 =
          (extract_displacement_components fs path dT).1) := by
  intro fs path dT
  have hfs : (extract_displacement_components fs path dT).2 = fs := by
    rcases h : pvRead fs path with _ | m
    · simp [extract_displacement_components, h]
    · simp [extract_displacement_components, h]
  refine ⟨hfs, by rw [hfs], ?_⟩
  intro fs2 h2
  rcases h : pvRead fs path with _ | m
  · rw [h] at h2
    simp [extract_displacement_components, h, h2]
  · rw [h] at h2
    simp [extract_displacement_components, h, h2]

/-- C10 witness: a second file system holding the same content at the
path produces bit-identical arrays, and the file system is unchanged. -/
theorem extract_deterministic_readonly_witness :
    (extract_displacement_components [("ok.vtu", meshOkay)] "ok.vtu" "-50").2 =
      [("ok.vtu", meshOkay)] ∧
    (extract_displacement_components [("ok.vtu", meshOkay), ("b.vtu", meshSingleTag)]
        "ok.vtu" "-50").1 =
      (extract_displacement_components [("ok.vtu", meshOkay)] "ok.vtu" "-50").1 :=
  ⟨(extract_deterministic_readonly [("ok.vtu", meshOkay)] "ok.vtu" "-50").1,
   (extract_deterministic_readonly [("ok.vtu", meshOkay)] "ok.vtu" "-50").2.2
     [("ok.vtu", meshOkay), ("b.vtu", meshSingleTag)] (by decide)⟩

/-- C4 amended witness: the single-tag mesh has one X row, counting the
tags whose extraction found the component. -/
theorem vtu_snapshot_rows_amended_witness :
    (vtu_snapshots_x meshSingleTag ["0"]).length =
      List.countP (fun d => (extract_x meshSingleTag d).isSome) ["0"] :=
  (vtu_snapshot_rows_amended meshSingleTag ["0"] (-50) 90 20).1

/-- C5 amended witness: the discovered tags of the example mesh are
sorted by numeric value. -/
theorem tag_discovery_sorted_numerically_witness :
    List.Sorted tagLE (list_available_deltats_core meshExampleTags) :=
  (tag_discovery_sorted_numerically.2 meshExampleTags).1
